import Mathlib

/-!
Shallow embedding of `main.py` from the semantic-segmentation repository
(TGS salt segmentation: dataset loader, training loop with early stopping
and best-loss checkpointing, inference binarization, loss persistence and
curve plotting), together with theorems settling the specification claims.

Framework primitives (the U-Net forward pass, the Adam update, numpy's
shuffle) are modelled as abstract parameters; the repository's own control
flow is translated line by line.  Scalar losses are modelled as rationals.
-/

namespace Model

/-- Hyperparameters and framework hooks of `Model.__init__` / `Model.train`.
`W` is the abstract type of network weights (`self.net`'s parameters).
`trainEpoch w e` runs the inner training-batch loop of epoch `e` starting
from weights `w`, returning the updated weights and the epoch's average
train loss (`np.mean(train_loss_epoch)`); `testEpoch w e` runs the
`torch.no_grad()` test-batch loop and returns the average test loss. -/
structure Config (W : Type) where
  num_epochs : ℕ
  early_stopping_epochs : ℕ
  save_loss : Bool
  trainEpoch : W → ℕ → W × ℚ
  testEpoch : W → ℕ → ℚ

/-- Default value of `self.num_epochs` in `Model.__init__`. -/
def init_num_epochs : ℕ := 50

/-- Default value of `self.early_stopping_epochs` in `Model.__init__`. -/
def init_early_stopping_epochs : ℕ := 10

/-- Mutable state carried across epochs by `Model.train`:
the network weights, `best_loss`, `early_stopping_counter`, the
`self.train_loss` / `self.test_loss` lists, and the contents of the
checkpoint file `./model.pt` (`none` while the file has not been written;
a `torch.save` overwrites it, so a single optional cell models the disk). -/
structure TState (W : Type) where
  weights : W
  best_loss : ℚ
  early_stopping_counter : ℕ
  train_loss : List ℚ
  test_loss : List ℚ
  model_pt : Option W
  deriving DecidableEq

/-- State at entry of `Model.train`: `best_loss = 1e99`,
`early_stopping_counter = 0`, empty loss lists, no checkpoint on disk. -/
def initTState {W : Type} (w0 : W) : TState W :=
  ⟨w0, 10 ^ 99, 0, [], [], none⟩

/-- Body of one iteration of `for epoch in range(self.num_epochs)` after
the early-stopping check: run the training batches, append the average
train loss, run the test batches under `no_grad`, append the average test
loss, and on strict improvement over `best_loss` save the weights to
`./model.pt` and reset the counter, else increment the counter. -/
def epochBody {W : Type} (cfg : Config W) (s : TState W) (epoch : ℕ) : TState W :=
  let wl := cfg.trainEpoch s.weights epoch
  let avg_train_loss := wl.2
  let avg_test_loss := cfg.testEpoch wl.1 epoch
  let s1 : TState W :=
    { s with weights := wl.1
             train_loss := s.train_loss ++ [avg_train_loss]
             test_loss := s.test_loss ++ [avg_test_loss] }
  if avg_test_loss < s.best_loss then
    { s1 with best_loss := avg_test_loss
              model_pt := some wl.1
              early_stopping_counter := 0 }
  else
    { s1 with early_stopping_counter := s.early_stopping_counter + 1 }

/-- Runs up to `fuel` further loop iterations starting at epoch index `e`,
breaking out of the loop as soon as
`early_stopping_counter == self.early_stopping_epochs` holds at the top of
an iteration (the `break` on line 134 of `main.py`). -/
def runFrom {W : Type} (cfg : Config W) : ℕ → ℕ → TState W → TState W
  | _, 0, s => s
  | e, fuel + 1, s =>
      if s.early_stopping_counter = cfg.early_stopping_epochs then s
      else runFrom cfg (e + 1) fuel (epochBody cfg s e)

/-- The training state after at most `i` epochs of `Model.train`. -/
def stateAfter {W : Type} (cfg : Config W) (w0 : W) (i : ℕ) : TState W :=
  runFrom cfg 0 i (initTState w0)

/-- `Model.train` without the final `save_loss_pkl` call: the state after
the `for epoch in range(self.num_epochs)` loop finishes. -/
def train {W : Type} (cfg : Config W) (w0 : W) : TState W :=
  stateAfter cfg w0 cfg.num_epochs

/-- The files `train_loss.pkl` and `test_loss.pkl` on disk
(`none` = file absent). -/
structure FS where
  train_loss_pkl : Option (List ℚ)
  test_loss_pkl : Option (List ℚ)
  deriving DecidableEq

/-- `Model.save_loss_pkl`: pickles `self.train_loss` to `train_loss.pkl`
and `self.test_loss` to `test_loss.pkl`, overwriting both files. -/
def save_loss_pkl (train_loss test_loss : List ℚ) (_fs : FS) : FS :=
  ⟨some train_loss, some test_loss⟩

/-- `Model.load_loss_pkl`: unpickles both lists; opening a missing file
raises, modelled as `none`. -/
def load_loss_pkl (fs : FS) : Option (List ℚ × List ℚ) :=
  match fs.train_loss_pkl, fs.test_loss_pkl with
  | some a, some b => some (a, b)
  | _, _ => none

/-- `Model.train` in full: the epoch loop followed by
`if self.save_loss: self.save_loss_pkl()`. -/
def train_and_save {W : Type} (cfg : Config W) (w0 : W) (fs : FS) : TState W × FS :=
  let s := train cfg w0
  (s, if cfg.save_loss then save_loss_pkl s.train_loss s.test_loss fs else fs)

/-- `plt.plot(x, y)`: matplotlib raises a `ValueError` when the two
sequences have different lengths, and otherwise draws the line. -/
def plt_plot (x y : List ℚ) : Except String Unit :=
  if x.length = y.length then Except.ok ()
  else Except.error ("x and y must have same first dimension")

/-- The x-axis `x = [i for i in range(1, self.num_epochs + 1)]` of
`Model.plot_curves`. -/
def epoch_axis (num_epochs : ℕ) : List ℚ :=
  List.map (fun i : ℕ => (i : ℚ)) (List.range' 1 num_epochs)

/-- `Model.plot_curves`: builds `x = [i for i in range(1, self.num_epochs + 1)]`
and plots `self.train_loss` and then `self.test_loss` against it; the
first failing `plt.plot` call propagates its error. -/
def plot_curves (num_epochs : ℕ) (train_loss test_loss : List ℚ) :
    Except String Unit :=
  match plt_plot (epoch_axis num_epochs) train_loss with
  | Except.error e => Except.error e
  | Except.ok _ => plt_plot (epoch_axis num_epochs) test_loss

end Model

/-- PIL images as the chain of operations that produced them:
`Img.open' dir name` is `Image.open(os.path.join(dir, name))`,
`Img.convert m i` is `i.convert(m)` and `Img.resize w h i` is
`i.resize((w, h))`. -/
inductive Img where
  | open' (dir : String) (name : String) : Img
  | convert (mode : String) (img : Img) : Img
  | resize (width height : ℕ) (img : Img) : Img
  deriving DecidableEq

/-- The `TGSDataset` object: the two directory paths, the optional torch
transform, and `self.all_images = os.listdir(img_path)`. -/
structure TGSDataset where
  img_path : String
  mask_path : String
  transform : Option (Img → Img)
  all_images : List String

/-- `TGSDataset.__init__`, with `os.listdir` passed in as an oracle for
the directory listing. -/
def TGSDataset.init (img_path mask_path : String) (transform : Option (Img → Img))
    (listdir : String → List String) : TGSDataset :=
  ⟨img_path, mask_path, transform, listdir img_path⟩

/-- `TGSDataset.__len__`. -/
def TGSDataset.len (self : TGSDataset) : ℕ :=
  self.all_images.length

/-- `TGSDataset.__getitem__`: look up the file name at `index` in
`self.all_images`, open it from the image directory and the *same* name
from the mask directory, convert both to grayscale (`"L"`), resize both
to `(128, 128)`, and apply the transform (if any) to both.  An
out-of-range index raises, modelled as `none`. -/
def TGSDataset.getitem (self : TGSDataset) (index : ℕ) : Option (Img × Img) :=
  match self.all_images.get? index with
  | none => none
  | some file_name =>
      let input_img := Img.resize 128 128 (Img.convert ("L") (Img.open' self.img_path file_name))
      let mask_img := Img.resize 128 128 (Img.convert ("L") (Img.open' self.mask_path file_name))
      some (match self.transform with
            | none => (input_img, mask_img)
            | some t => (t input_img, t mask_img))

/-- Parsed command-line flags (`argparse` namespace): all three are
independent `store_true` flags. -/
structure Args where
  train : Bool
  infer : Bool
  curves : Bool
  deriving DecidableEq

/-- Folds the `store_true` flag handling of the `argparse` parser over the
remaining tokens: each recognised flag sets its boolean; an unrecognised
token makes `parse_args` error out.  No combination of the three
recognised flags is rejected. -/
def parse_tokens (a : Args) : List String → Except String Args
  | [] => Except.ok a
  | tok :: rest =>
      if tok = "--train" then parse_tokens { a with train := true } rest
      else if tok = "--infer" then parse_tokens { a with infer := true } rest
      else if tok = "--curves" then parse_tokens { a with curves := true } rest
      else Except.error ("unrecognized arguments")

/-- `parser.parse_args(argv)` for the parser built in `__main__`. -/
def parse_args (argv : List String) : Except String Args :=
  parse_tokens ⟨false, false, false⟩ argv

/-- The three run modes of the program. -/
inductive Mode where
  | train
  | infer
  | curves
  deriving DecidableEq

/-- The `if args.train: ... elif args.infer: ... elif args.curves: ...`
dispatch in `__main__`: the mode that runs, if any. -/
def select_mode (a : Args) : Option Mode :=
  if a.train then some Mode.train
  else if a.infer then some Mode.infer
  else if a.curves then some Mode.curves
  else none

/-- The command line that supplies exactly the flags set in `a`. -/
def flags_of (a : Args) : List String :=
  (if a.train then ["--train"] else []) ++
    (if a.infer then ["--infer"] else []) ++
    (if a.curves then ["--curves"] else [])

/-- The elementwise binarization `pred_bin = pred > threshold` of
`Model.infer_data`, with the threshold parameter's declared default
`0.5`; a pixel of the result is `true` exactly when the predicted value
exceeds the threshold. -/
def pred_binary (pred : List ℚ) (threshold : ℚ := 0.5) : List Bool :=
  pred.map fun p => decide (p > threshold)

/-- State touched by one batch step inside `Model.train`: the network
parameters and the gradient buffers the optimizer owns. -/
structure NetState (W G : Type) where
  weights : W
  grads : G
  deriving DecidableEq

/-- The framework primitives used by the batch loops: `zero_grad` is the
cleared gradient buffer, `forward_loss w b` is `self.loss(self.net(img), mask)`,
`backward w b` the gradients produced by `loss.backward()`, and
`step w g` the parameters after `optimizer.step()`. -/
structure TorchPrims (W G B : Type) where
  zero_grad : G
  forward_loss : W → B → ℚ
  backward : W → B → G
  step : W → G → W

/-- One iteration of the training-batch loop (lines 142-155 of `main.py`):
`optimizer.zero_grad()`, forward pass, `loss.backward()`,
`optimizer.step()`, and the recorded `loss.item()`. -/
def train_batch {W G B : Type} (p : TorchPrims W G B) (s : NetState W G) (batch : B) :
    NetState W G × ℚ :=
  let s0 : NetState W G := { s with grads := p.zero_grad }
  let loss := p.forward_loss s0.weights batch
  let g := p.backward s0.weights batch
  ({ weights := p.step s0.weights g, grads := g }, loss)

/-- One iteration of the test-batch loop (lines 163-171 of `main.py`),
inside `torch.no_grad()`: `optimizer.zero_grad()` and a forward pass; no
`backward`, no `optimizer.step()`. -/
def test_batch {W G B : Type} (p : TorchPrims W G B) (s : NetState W G) (batch : B) :
    NetState W G × ℚ :=
  let s0 : NetState W G := { s with grads := p.zero_grad }
  let loss := p.forward_loss s0.weights batch
  (s0, loss)

/-- The training-batch loop over payloads of the train dataloader. -/
def train_batches {W G B : Type} (p : TorchPrims W G B) (s : NetState W G) :
    List B → NetState W G × List ℚ
  | [] => (s, [])
  | b :: bs =>
      let sl := train_batch p s b
      let rest := train_batches p sl.1 bs
      (rest.1, sl.2 :: rest.2)

/-- The test-batch loop over payloads of the test dataloader. -/
def test_batches {W G B : Type} (p : TorchPrims W G B) (s : NetState W G) :
    List B → NetState W G × List ℚ
  | [] => (s, [])
  | b :: bs =>
      let sl := test_batch p s b
      let rest := test_batches p sl.1 bs
      (rest.1, sl.2 :: rest.2)

/-- `test_split = 0.2` in `Model.__init__`. -/
def test_split : ℚ := 0.2

/-- `random_seed = 42` in `Model.__init__`; the shuffle is seeded with it
before the single shuffle of the run, so the resulting partition is a
fixed function of the directory listing and never changes afterwards. -/
def random_seed : ℕ := 42

/-- `split = int(np.floor(test_split * dataset_size))`. -/
def split_index (dataset_size : ℕ) : ℕ :=
  ⌊test_split * (dataset_size : ℚ)⌋₊

/-- `train_indices, test_indices = indices[split:], indices[:split]`,
applied to the shuffled copy of `list(range(dataset_size))`. -/
def train_test_indices (shuffled_indices : List ℕ) (dataset_size : ℕ) :
    List ℕ × List ℕ :=
  (shuffled_indices.drop (split_index dataset_size),
    shuffled_indices.take (split_index dataset_size))

/-- A concrete instantiation used as evaluation input for the trace
theorems: constant test loss `5`, so the first epoch improves on the
`1e99` sentinel and no later epoch improves; with patience `2` the run
early-stops after epoch 2. -/
def wcfg : Model.Config Unit :=
  { num_epochs := 6
    early_stopping_epochs := 2
    save_loss := true
    trainEpoch := fun _ e => ((), (e : ℚ))
    testEpoch := fun _ _ => 5 }

/-- A concrete two-file dataset used as evaluation input, with the
repository's directory constants and no transform. -/
def wdataset : TGSDataset :=
  ⟨"./data/train/images/", "./data/train/masks/", none, ["a.png", "b.png"]⟩

namespace Model

lemma runFrom_zero {W : Type} (cfg : Config W) (e : ℕ) (s : TState W) :
    runFrom cfg e 0 s = s := rfl

lemma runFrom_succ {W : Type} (cfg : Config W) (e fuel : ℕ) (s : TState W) :
    runFrom cfg e (fuel + 1) s =
      if s.early_stopping_counter = cfg.early_stopping_epochs then s
      else runFrom cfg (e + 1) fuel (epochBody cfg s e) := rfl

/-- Peeling the *last* iteration off `runFrom`. -/
lemma runFrom_succ_last {W : Type} (cfg : Config W) (fuel : ℕ) :
    ∀ (e : ℕ) (s : TState W),
      runFrom cfg e (fuel + 1) s =
        (let r := runFrom cfg e fuel s;
         if r.early_stopping_counter = cfg.early_stopping_epochs then r
         else epochBody cfg r (e + fuel)) := by
  induction fuel with
  | zero =>
      intro e s
      simp [runFrom_succ, runFrom_zero]
  | succ n ih =>
      intro e s
      rw [runFrom_succ]
      by_cases h : s.early_stopping_counter = cfg.early_stopping_epochs
      · simp only [if_pos h]
        rw [runFrom_succ, if_pos h]
        simp [h]
      · simp only [if_neg h]
        rw [ih (e + 1) (epochBody cfg s e)]
        rw [runFrom_succ, if_neg h]
        have : e + 1 + n = e + (n + 1) := by omega
        simp [this]

lemma stateAfter_zero {W : Type} (cfg : Config W) (w0 : W) :
    stateAfter cfg w0 0 = initTState w0 := rfl

lemma stateAfter_succ {W : Type} (cfg : Config W) (w0 : W) (i : ℕ) :
    stateAfter cfg w0 (i + 1) =
      (let r := stateAfter cfg w0 i;
       if r.early_stopping_counter = cfg.early_stopping_epochs then r
       else epochBody cfg r i) := by
  unfold stateAfter
  rw [runFrom_succ_last]
  simp

lemma epochBody_counter {W : Type} (cfg : Config W) (s : TState W) (e : ℕ) :
    (epochBody cfg s e).early_stopping_counter =
      if cfg.testEpoch (cfg.trainEpoch s.weights e).1 e < s.best_loss then 0
      else s.early_stopping_counter + 1 := by
  simp only [epochBody]
  split <;> rfl

lemma epochBody_weights {W : Type} (cfg : Config W) (s : TState W) (e : ℕ) :
    (epochBody cfg s e).weights = (cfg.trainEpoch s.weights e).1 := by
  simp only [epochBody]
  split <;> rfl

lemma epochBody_train_loss {W : Type} (cfg : Config W) (s : TState W) (e : ℕ) :
    (epochBody cfg s e).train_loss =
      s.train_loss ++ [(cfg.trainEpoch s.weights e).2] := by
  simp only [epochBody]
  split <;> rfl

lemma epochBody_test_loss {W : Type} (cfg : Config W) (s : TState W) (e : ℕ) :
    (epochBody cfg s e).test_loss =
      s.test_loss ++ [cfg.testEpoch (cfg.trainEpoch s.weights e).1 e] := by
  simp only [epochBody]
  split <;> rfl

lemma epochBody_model_pt {W : Type} (cfg : Config W) (s : TState W) (e : ℕ) :
    (epochBody cfg s e).model_pt =
      if cfg.testEpoch (cfg.trainEpoch s.weights e).1 e < s.best_loss then
        some (cfg.trainEpoch s.weights e).1
      else s.model_pt := by
  simp only [epochBody]
  split <;> rfl

lemma epochBody_best_loss {W : Type} (cfg : Config W) (s : TState W) (e : ℕ) :
    (epochBody cfg s e).best_loss =
      if cfg.testEpoch (cfg.trainEpoch s.weights e).1 e < s.best_loss then
        cfg.testEpoch (cfg.trainEpoch s.weights e).1 e
      else s.best_loss := by
  simp only [epochBody]
  split <;> rfl

/-- Once the counter has reached the patience threshold, the state is
frozen: no later epoch executes. -/
lemma stateAfter_frozen {W : Type} (cfg : Config W) (w0 : W) (i : ℕ)
    (hc : (stateAfter cfg w0 i).early_stopping_counter = cfg.early_stopping_epochs) :
    ∀ j, i ≤ j → stateAfter cfg w0 j = stateAfter cfg w0 i := by
  intro j hij
  induction j with
  | zero =>
      have : i = 0 := Nat.le_zero.mp hij
      simp [this]
  | succ n ih =>
      rcases Nat.lt_or_ge i (n + 1) with h | h
      · have hin : i ≤ n := Nat.lt_succ_iff.mp h
        have hn := ih hin
        rw [stateAfter_succ]
        simp only [hn]
        rw [if_pos hc]
      · have : i = n + 1 := le_antisymm hij h
        simp [this]

/-- If epoch `i` is about to execute (counter below patience at time `i`),
then no earlier state had reached the patience threshold either. -/
lemma counter_ne_of_le {W : Type} (cfg : Config W) (w0 : W) (i j : ℕ)
    (hc : (stateAfter cfg w0 i).early_stopping_counter ≠ cfg.early_stopping_epochs)
    (hji : j ≤ i) :
    (stateAfter cfg w0 j).early_stopping_counter ≠ cfg.early_stopping_epochs := by
  intro hj
  exact hc (by rw [stateAfter_frozen cfg w0 j hj i hji]; exact hj)

lemma stateAfter_step_of_run {W : Type} (cfg : Config W) (w0 : W) (i : ℕ)
    (hc : (stateAfter cfg w0 i).early_stopping_counter ≠ cfg.early_stopping_epochs) :
    stateAfter cfg w0 (i + 1) = epochBody cfg (stateAfter cfg w0 i) i := by
  rw [stateAfter_succ]
  simp only [if_neg hc]

/-- The two loss lists always have the same length. -/
lemma loss_lists_length_eq {W : Type} (cfg : Config W) (w0 : W) (i : ℕ) :
    (stateAfter cfg w0 i).train_loss.length = (stateAfter cfg w0 i).test_loss.length := by
  induction i with
  | zero => rfl
  | succ n ih =>
      rw [stateAfter_succ]
      by_cases h :
        (stateAfter cfg w0 n).early_stopping_counter = cfg.early_stopping_epochs
      · simpa [h] using ih
      · simp only [if_neg h, epochBody_train_loss, epochBody_test_loss,
          List.length_append, List.length_cons, List.length_nil]
        omega

/-- At most one loss is appended per loop iteration. -/
lemma test_loss_length_le {W : Type} (cfg : Config W) (w0 : W) (i : ℕ) :
    (stateAfter cfg w0 i).test_loss.length ≤ i := by
  induction i with
  | zero => simp [stateAfter_zero, initTState]
  | succ n ih =>
      rw [stateAfter_succ]
      by_cases h :
        (stateAfter cfg w0 n).early_stopping_counter = cfg.early_stopping_epochs
      · simp only [if_pos h]
        omega
      · simp only [if_neg h, epochBody_test_loss, List.length_append,
          List.length_cons, List.length_nil]
        omega

/-- While the run has not early-stopped, every epoch so far has executed:
one test loss per epoch. -/
lemma test_loss_length_of_run {W : Type} (cfg : Config W) (w0 : W) (i : ℕ)
    (hc : (stateAfter cfg w0 i).early_stopping_counter ≠ cfg.early_stopping_epochs) :
    (stateAfter cfg w0 i).test_loss.length = i := by
  induction i with
  | zero => simp [stateAfter_zero, initTState]
  | succ n ih =>
      have hn : (stateAfter cfg w0 n).early_stopping_counter ≠ cfg.early_stopping_epochs :=
        counter_ne_of_le cfg w0 (n + 1) n hc (Nat.le_succ n)
      rw [stateAfter_step_of_run cfg w0 n hn]
      simp only [epochBody_test_loss, List.length_append, List.length_cons,
        List.length_nil]
      rw [ih hn]

/-- `best_loss` is the running minimum of all recorded test losses,
starting from the sentinel `1e99`. -/
lemma best_loss_eq_foldl {W : Type} (cfg : Config W) (w0 : W) (i : ℕ) :
    (stateAfter cfg w0 i).best_loss =
      (stateAfter cfg w0 i).test_loss.foldl min ((10 : ℚ) ^ 99) := by
  induction i with
  | zero => simp [stateAfter_zero, initTState]
  | succ n ih =>
      rw [stateAfter_succ]
      by_cases h :
        (stateAfter cfg w0 n).early_stopping_counter = cfg.early_stopping_epochs
      · simpa [h] using ih
      · simp only [if_neg h, epochBody_best_loss, epochBody_test_loss,
          List.foldl_append, List.foldl_cons, List.foldl_nil]
        rw [← ih]
        by_cases hlt :
          cfg.testEpoch (cfg.trainEpoch (stateAfter cfg w0 n).weights n).1 n <
            (stateAfter cfg w0 n).best_loss
        · rw [if_pos hlt, min_eq_right hlt.le]
        · rw [if_neg hlt, min_eq_left (not_lt.mp hlt)]

lemma foldl_min_le_init (l : List ℚ) (a : ℚ) : l.foldl min a ≤ a := by
  induction l generalizing a with
  | nil => exact le_refl a
  | cons x xs ih =>
      calc (x :: xs).foldl min a = xs.foldl min (min a x) := rfl
        _ ≤ min a x := ih (min a x)
        _ ≤ a := min_le_left a x

lemma foldl_min_le_of_mem (l : List ℚ) (a x : ℚ) (hx : x ∈ l) :
    l.foldl min a ≤ x := by
  induction l generalizing a with
  | nil => cases hx
  | cons y ys ih =>
      rcases List.mem_cons.mp hx with h | h
      · calc (y :: ys).foldl min a = ys.foldl min (min a y) := rfl
          _ ≤ min a y := foldl_min_le_init ys (min a y)
          _ ≤ y := min_le_right a y
          _ = x := h.symm
      · exact ih (min a y) h

lemma foldl_min_eq_init_or_mem (l : List ℚ) (a : ℚ) :
    l.foldl min a = a ∨ l.foldl min a ∈ l := by
  induction l generalizing a with
  | nil => exact Or.inl rfl
  | cons y ys ih =>
      rcases ih (min a y) with h | h
      · rcases min_cases a y with ⟨hm, _⟩ | ⟨hm, _⟩
        · exact Or.inl (by rw [List.foldl_cons, h, hm])
        · exact Or.inr (by rw [List.foldl_cons, h, hm]; exact List.mem_cons_self y ys)
      · exact Or.inr (List.mem_cons_of_mem y h)

/-- Every recorded test loss is a value returned by `testEpoch`, hence
below the sentinel whenever `testEpoch` is. -/
lemma test_loss_mem_lt {W : Type} (cfg : Config W) (w0 : W)
    (hB : ∀ (w : W) (e : ℕ), cfg.testEpoch w e < (10 : ℚ) ^ 99) (i : ℕ) :
    ∀ x ∈ (stateAfter cfg w0 i).test_loss, x < (10 : ℚ) ^ 99 := by
  induction i with
  | zero => intro x hx; cases hx
  | succ n ih =>
      rw [stateAfter_succ]
      by_cases h :
        (stateAfter cfg w0 n).early_stopping_counter = cfg.early_stopping_epochs
      · simpa [h] using ih
      · simp only [if_neg h, epochBody_test_loss]
        intro x hx
        rcases List.mem_append.mp hx with hx | hx
        · exact ih x hx
        · rw [List.mem_singleton.mp hx]
          exact hB _ _

lemma getD_mem_of_lt (l : List ℚ) (j : ℕ) (hj : j < l.length) :
    l.getD j 0 ∈ l := by
  rw [List.getD_eq_getElem l 0 hj]
  exact List.getElem_mem hj

/-- Invariant of the training loop: `./model.pt` is empty while no epoch
has completed, and otherwise holds the weights computed in the earliest
epoch attaining the minimum recorded average test loss. -/
lemma checkpoint_argmin {W : Type} (cfg : Config W) (w0 : W)
    (hB : ∀ (w : W) (e : ℕ), cfg.testEpoch w e < (10 : ℚ) ^ 99) (i : ℕ) :
    ((stateAfter cfg w0 i).test_loss = [] → (stateAfter cfg w0 i).model_pt = none)
    ∧ ((stateAfter cfg w0 i).test_loss ≠ [] →
        ∃ k, k < (stateAfter cfg w0 i).test_loss.length
          ∧ (∀ j, j < (stateAfter cfg w0 i).test_loss.length →
              (stateAfter cfg w0 i).test_loss.getD k 0 ≤
                (stateAfter cfg w0 i).test_loss.getD j 0)
          ∧ (∀ j, j < k →
              (stateAfter cfg w0 i).test_loss.getD k 0 <
                (stateAfter cfg w0 i).test_loss.getD j 0)
          ∧ (stateAfter cfg w0 i).model_pt =
              some ((stateAfter cfg w0 (k + 1)).weights)) := by
  induction i with
  | zero =>
      refine ⟨fun _ => rfl, fun hne => absurd rfl hne⟩
  | succ n ih =>
      by_cases h :
        (stateAfter cfg w0 n).early_stopping_counter = cfg.early_stopping_epochs
      · have heq : stateAfter cfg w0 (n + 1) = stateAfter cfg w0 n := by
          rw [stateAfter_succ]; simp [h]
        rw [heq]
        exact ih
      · have hstep := stateAfter_step_of_run cfg w0 n h
        have hlen : (stateAfter cfg w0 n).test_loss.length = n :=
          test_loss_length_of_run cfg w0 n h
        have hweights : (stateAfter cfg w0 (n + 1)).weights =
            (cfg.trainEpoch (stateAfter cfg w0 n).weights n).1 := by
          rw [hstep, epochBody_weights]
        have htl : (stateAfter cfg w0 (n + 1)).test_loss =
            (stateAfter cfg w0 n).test_loss ++
              [cfg.testEpoch (cfg.trainEpoch (stateAfter cfg w0 n).weights n).1 n] := by
          rw [hstep, epochBody_test_loss]
        have hmp : (stateAfter cfg w0 (n + 1)).model_pt =
            if cfg.testEpoch (cfg.trainEpoch (stateAfter cfg w0 n).weights n).1 n <
                (stateAfter cfg w0 n).best_loss then
              some (cfg.trainEpoch (stateAfter cfg w0 n).weights n).1
            else (stateAfter cfg w0 n).model_pt := by
          rw [hstep, epochBody_model_pt]
        have hbest : (stateAfter cfg w0 n).best_loss =
            (stateAfter cfg w0 n).test_loss.foldl min ((10 : ℚ) ^ 99) :=
          best_loss_eq_foldl cfg w0 n
        set s := stateAfter cfg w0 n with hs
        set l := cfg.testEpoch (cfg.trainEpoch s.weights n).1 n with hl
        have hlen' : (stateAfter cfg w0 (n + 1)).test_loss.length = n + 1 := by
          rw [htl]; simp [hlen]
        constructor
        · intro hemp
          rw [htl] at hemp
          exact absurd hemp (by simp)
        · intro _
          by_cases himp : l < s.best_loss
          · -- improvement: the new loss is a new strict minimum at index n
            have hkval : (stateAfter cfg w0 (n + 1)).test_loss.getD n 0 = l := by
              rw [htl, List.getD_append_right _ _ _ _ hlen.le]
              simp [hlen]
            refine ⟨n, by omega, ?_, ?_, ?_⟩
            · intro j hj
              rw [hlen'] at hj
              rcases Nat.lt_succ_iff_lt_or_eq.mp hj with hj' | hj'
              · rw [hkval, htl, List.getD_append _ _ _ _ (hlen ▸ hj')]
                have hmem : s.test_loss.getD j 0 ∈ s.test_loss :=
                  getD_mem_of_lt _ _ (hlen ▸ hj')
                have := foldl_min_le_of_mem s.test_loss ((10 : ℚ) ^ 99) _ hmem
                rw [← hbest] at this
                exact le_of_lt (lt_of_lt_of_le himp this)
              · rw [hj', hkval]
            · intro j hj
              rw [hkval, htl, List.getD_append _ _ _ _ (hlen ▸ hj)]
              have hmem : s.test_loss.getD j 0 ∈ s.test_loss :=
                getD_mem_of_lt _ _ (hlen ▸ hj)
              have := foldl_min_le_of_mem s.test_loss ((10 : ℚ) ^ 99) _ hmem
              rw [← hbest] at this
              exact lt_of_lt_of_le himp this
            · rw [hmp, if_pos himp, hweights]
          · -- no improvement: the previous first minimum is unchanged
            have hne : s.test_loss ≠ [] := by
              intro he
              rw [he] at hbest
              simp only [List.foldl_nil] at hbest
              exact himp (hbest ▸ hB (cfg.trainEpoch s.weights n).1 n)
            obtain ⟨k, hk, hmin, hstrict, hcp⟩ := ih.2 hne
            rw [hlen] at hk
            have hgetk : (stateAfter cfg w0 (n + 1)).test_loss.getD k 0 =
                s.test_loss.getD k 0 := by
              rw [htl, List.getD_append _ _ _ _ (hlen ▸ hk)]
            have hk_le_best : s.test_loss.getD k 0 ≤ s.best_loss := by
              rcases foldl_min_eq_init_or_mem s.test_loss ((10 : ℚ) ^ 99) with hbig | hmem
              · exfalso
                have hkmem : s.test_loss.getD k 0 ∈ s.test_loss :=
                  getD_mem_of_lt _ _ (hlen ▸ hk)
                have h1 := test_loss_mem_lt cfg w0 hB n _ hkmem
                have h2 := foldl_min_le_of_mem s.test_loss ((10 : ℚ) ^ 99) _ hkmem
                rw [hbig] at h2
                exact absurd h1 (not_lt.mpr h2)
              · obtain ⟨idx, hidx, hidxv⟩ := List.mem_iff_getElem.mp hmem
                have : s.test_loss.getD idx 0 = s.best_loss := by
                  rw [List.getD_eq_getElem _ _ hidx, hidxv, hbest]
                calc s.test_loss.getD k 0 ≤ s.test_loss.getD idx 0 :=
                      hmin idx (hlen ▸ hidx)
                  _ = s.best_loss := this
            refine ⟨k, by omega, ?_, ?_, ?_⟩
            · intro j hj
              rw [hlen'] at hj
              rcases Nat.lt_succ_iff_lt_or_eq.mp hj with hj' | hj'
              · rw [hgetk, htl, List.getD_append _ _ _ _ (hlen ▸ hj')]
                exact hmin j (hlen ▸ hj')
              · have hjl : (stateAfter cfg w0 (n + 1)).test_loss.getD j 0 = l := by
                  rw [hj', htl, List.getD_append_right _ _ _ _ hlen.le]
                  simp [hlen]
                rw [hjl, hgetk]
                exact le_trans hk_le_best (not_lt.mp himp)
            · intro j hj
              have hjk : j < n := lt_trans hj hk
              rw [hgetk, htl, List.getD_append _ _ _ _ (hlen ▸ hjk)]
              exact hstrict j hj
            · rw [hmp, if_neg himp]
              exact hcp

end Model

/-- C1: in `Model.train`, the early-stopping counter increments by one at
the end of every epoch whose average test loss does not improve on the
best test loss so far (the running minimum of recorded test losses, with
sentinel `1e99`), resets to zero on improvement, and training halts
exactly when the counter reaches `early_stopping_epochs` (default 10):
the state is frozen from that point on, so no further epoch executes. -/
theorem spec_C1_early_stopping {W : Type} (cfg : Model.Config W) (w0 : W) (i j : ℕ) :
    Model.init_early_stopping_epochs = 10
    ∧ Model.train cfg w0 = Model.stateAfter cfg w0 cfg.num_epochs
    ∧ (∀ (s : Model.TState W) (e : ℕ),
        (Model.epochBody cfg s e).early_stopping_counter =
          if cfg.testEpoch (cfg.trainEpoch s.weights e).1 e < s.best_loss then 0
          else s.early_stopping_counter + 1)
    ∧ (Model.stateAfter cfg w0 i).best_loss =
        (Model.stateAfter cfg w0 i).test_loss.foldl min ((10 : ℚ) ^ 99)
    ∧ ((Model.stateAfter cfg w0 i).early_stopping_counter ≠ cfg.early_stopping_epochs →
        Model.stateAfter cfg w0 (i + 1) =
          Model.epochBody cfg (Model.stateAfter cfg w0 i) i)
    ∧ ((Model.stateAfter cfg w0 i).early_stopping_counter = cfg.early_stopping_epochs →
        i ≤ j → Model.stateAfter cfg w0 j = Model.stateAfter cfg w0 i) := by
  refine ⟨rfl, rfl, Model.epochBody_counter cfg, Model.best_loss_eq_foldl cfg w0 i,
    Model.stateAfter_step_of_run cfg w0 i, fun hc hij => Model.stateAfter_frozen cfg w0 i hc j hij⟩

set_option maxRecDepth 8000

/-- Witness for C1 at the concrete run `wcfg`: epoch 1 executes (counter
below patience) and is an epoch step; the counter reaches patience 2 after
epoch 2, and the state at time 5 is frozen at the state of time 3. -/
theorem spec_C1_early_stopping_witness :
    ((Model.stateAfter wcfg () 1).early_stopping_counter ≠ wcfg.early_stopping_epochs
      ∧ Model.stateAfter wcfg () 2 = Model.epochBody wcfg (Model.stateAfter wcfg () 1) 1)
    ∧ ((Model.stateAfter wcfg () 3).early_stopping_counter = wcfg.early_stopping_epochs
      ∧ Model.stateAfter wcfg () 5 = Model.stateAfter wcfg () 3) := by
  refine ⟨⟨by decide, (spec_C1_early_stopping wcfg () 1 0).2.2.2.2.1 (by decide)⟩,
    ⟨by decide, (spec_C1_early_stopping wcfg () 3 5).2.2.2.2.2 (by decide) (by decide)⟩⟩

/-- C3: in `Model.train`, when epoch `i` executes, `./model.pt` is
overwritten with the epoch's post-update weights exactly when the epoch's
average test loss is strictly below the running minimum (`best_loss`,
initialised to `1e99`) of the previous epochs' average test losses, and is
untouched otherwise; after training, `./model.pt` holds the weights
produced in the earliest epoch attaining the lowest average test loss (and
is absent if no epoch completed).  The checkpoint file is a single cell
that each save overwrites, so no other model state is retained. -/
theorem spec_C3_best_checkpoint {W : Type} (cfg : Model.Config W) (w0 : W) (i : ℕ)
    (hB : ∀ (w : W) (e : ℕ), cfg.testEpoch w e < (10 : ℚ) ^ 99) :
    ((Model.stateAfter cfg w0 i).early_stopping_counter ≠ cfg.early_stopping_epochs →
      (Model.stateAfter cfg w0 (i + 1)).model_pt =
        (if cfg.testEpoch (cfg.trainEpoch (Model.stateAfter cfg w0 i).weights i).1 i <
            (Model.stateAfter cfg w0 i).test_loss.foldl min ((10 : ℚ) ^ 99) then
          some ((Model.stateAfter cfg w0 (i + 1)).weights)
        else (Model.stateAfter cfg w0 i).model_pt))
    ∧ ((Model.train cfg w0).test_loss = [] → (Model.train cfg w0).model_pt = none)
    ∧ ((Model.train cfg w0).test_loss ≠ [] →
        ∃ k, k < (Model.train cfg w0).test_loss.length
          ∧ (∀ j, j < (Model.train cfg w0).test_loss.length →
              (Model.train cfg w0).test_loss.getD k 0 ≤
                (Model.train cfg w0).test_loss.getD j 0)
          ∧ (∀ j, j < k →
              (Model.train cfg w0).test_loss.getD k 0 <
                (Model.train cfg w0).test_loss.getD j 0)
          ∧ (Model.train cfg w0).model_pt =
              some ((Model.stateAfter cfg w0 (k + 1)).weights)) := by
  refine ⟨?_, ?_, ?_⟩
  · intro h
    rw [Model.stateAfter_step_of_run cfg w0 i h, Model.epochBody_model_pt,
      Model.epochBody_weights, ← Model.best_loss_eq_foldl]
  · exact (Model.checkpoint_argmin cfg w0 hB cfg.num_epochs).1
  · exact (Model.checkpoint_argmin cfg w0 hB cfg.num_epochs).2

/-- Witness for C3 at the concrete run `wcfg`: after training, three
epochs completed and the checkpoint holds the weights of epoch 0, the
earliest epoch attaining the minimal average test loss. -/
theorem spec_C3_best_checkpoint_witness :
    (Model.train wcfg ()).test_loss ≠ []
    ∧ ∃ k, k < (Model.train wcfg ()).test_loss.length
        ∧ (∀ j, j < (Model.train wcfg ()).test_loss.length →
            (Model.train wcfg ()).test_loss.getD k 0 ≤
              (Model.train wcfg ()).test_loss.getD j 0)
        ∧ (∀ j, j < k →
            (Model.train wcfg ()).test_loss.getD k 0 <
              (Model.train wcfg ()).test_loss.getD j 0)
        ∧ (Model.train wcfg ()).model_pt =
            some ((Model.stateAfter wcfg () (k + 1)).weights) :=
  ⟨by decide,
    (spec_C3_best_checkpoint wcfg () 0
      (fun _ _ => by show (5 : ℚ) < (10 : ℚ) ^ 99; norm_num)).2.2 (by decide)⟩

/-- C7: in `Model.train`, each completed epoch appends exactly one average
train loss to `self.train_loss` and exactly one average test loss to
`self.test_loss` (and an epoch skipped by early stopping appends nothing),
so the two lists always have equal length, equal to the number of epochs
completed so far; at the end of the run, when `save_loss` is set, both
lists are persisted to `train_loss.pkl` / `test_loss.pkl`. -/
theorem spec_C7_loss_lists {W : Type} (cfg : Model.Config W) (w0 : W)
    (fs : Model.FS) (i : ℕ) :
    (Model.stateAfter cfg w0 i).train_loss.length =
        (Model.stateAfter cfg w0 i).test_loss.length
    ∧ (Model.stateAfter cfg w0 i).test_loss.length ≤ i
    ∧ ((Model.stateAfter cfg w0 i).early_stopping_counter ≠ cfg.early_stopping_epochs →
        (Model.stateAfter cfg w0 i).test_loss.length = i)
    ∧ ((Model.stateAfter cfg w0 i).early_stopping_counter ≠ cfg.early_stopping_epochs →
        (Model.stateAfter cfg w0 (i + 1)).train_loss =
          (Model.stateAfter cfg w0 i).train_loss ++
            [(cfg.trainEpoch (Model.stateAfter cfg w0 i).weights i).2]
        ∧ (Model.stateAfter cfg w0 (i + 1)).test_loss =
          (Model.stateAfter cfg w0 i).test_loss ++
            [cfg.testEpoch (cfg.trainEpoch (Model.stateAfter cfg w0 i).weights i).1 i])
    ∧ ((Model.stateAfter cfg w0 i).early_stopping_counter = cfg.early_stopping_epochs →
        Model.stateAfter cfg w0 (i + 1) = Model.stateAfter cfg w0 i)
    ∧ (cfg.save_loss = true →
        (Model.train_and_save cfg w0 fs).2.train_loss_pkl =
            some ((Model.train cfg w0).train_loss)
        ∧ (Model.train_and_save cfg w0 fs).2.test_loss_pkl =
            some ((Model.train cfg w0).test_loss)) := by
  refine ⟨Model.loss_lists_length_eq cfg w0 i, Model.test_loss_length_le cfg w0 i,
    Model.test_loss_length_of_run cfg w0 i, ?_, ?_, ?_⟩
  · intro h
    rw [Model.stateAfter_step_of_run cfg w0 i h]
    exact ⟨Model.epochBody_train_loss cfg _ i, Model.epochBody_test_loss cfg _ i⟩
  · intro h
    rw [Model.stateAfter_succ]
    simp [h]
  · intro h
    simp [Model.train_and_save, Model.save_loss_pkl, h]

/-- Witness for C7 at the concrete run `wcfg`: epoch 1 appends one train
loss, and the final lists are persisted to the pickle files. -/
theorem spec_C7_loss_lists_witness :
    (Model.stateAfter wcfg () 2).train_loss =
      (Model.stateAfter wcfg () 1).train_loss ++
        [(wcfg.trainEpoch (Model.stateAfter wcfg () 1).weights 1).2]
    ∧ (Model.train_and_save wcfg () ⟨none, none⟩).2.train_loss_pkl =
        some ((Model.train wcfg ()).train_loss)
    ∧ (Model.train_and_save wcfg () ⟨none, none⟩).2.test_loss_pkl =
        some ((Model.train wcfg ()).test_loss) :=
  ⟨((spec_C7_loss_lists wcfg () ⟨none, none⟩ 1).2.2.2.1 (by decide)).1,
    ((spec_C7_loss_lists wcfg () ⟨none, none⟩ 1).2.2.2.2.2 rfl).1,
    ((spec_C7_loss_lists wcfg () ⟨none, none⟩ 1).2.2.2.2.2 rfl).2⟩



lemma split_index_eq (n : ℕ) : split_index n = n / 5 := by
  unfold split_index test_split
  have h : (0.2 : ℚ) * (n : ℚ) = (n : ℚ) / ((5 : ℕ) : ℚ) := by
    push_cast
    ring_nf
  rw [h, Nat.floor_div_nat, Nat.floor_natCast]

/-- C2: in `Model.__init__`, for a dataset of size `n`, `train_indices`
and `test_indices` partition `{0, ..., n-1}`: the test part is the first
`floor(0.2 * n)` entries of the shuffled index list and has that size, the
train part is the rest and has size `n - floor(0.2 * n)`, the two are
disjoint and duplicate-free, and together they cover every index below
`n`.  The shuffle is `np.random.shuffle` seeded with `random_seed = 42`,
modelled as an arbitrary permutation of `list(range(n))`; the defs are
pure functions of it, so the partition is static for the run. -/
theorem spec_C2_split (n : ℕ) (shuffled_indices : List ℕ)
    (hperm : shuffled_indices.Perm (List.range n)) :
    random_seed = 42
    ∧ (train_test_indices shuffled_indices n).2.length = n / 5
    ∧ (train_test_indices shuffled_indices n).1.length = n - n / 5
    ∧ (train_test_indices shuffled_indices n).2.length +
        (train_test_indices shuffled_indices n).1.length = n
    ∧ List.Disjoint (train_test_indices shuffled_indices n).1
        (train_test_indices shuffled_indices n).2
    ∧ (∀ k, k < n ↔ (k ∈ (train_test_indices shuffled_indices n).1 ∨
        k ∈ (train_test_indices shuffled_indices n).2))
    ∧ (train_test_indices shuffled_indices n).1.Nodup
    ∧ (train_test_indices shuffled_indices n).2.Nodup := by
  have hlen : shuffled_indices.length = n := by
    rw [hperm.length_eq, List.length_range]
  have hnd : shuffled_indices.Nodup := hperm.nodup_iff.mpr (List.nodup_range n)
  have hk : split_index n ≤ n := by
    rw [split_index_eq]
    exact Nat.div_le_self n 5
  unfold train_test_indices
  refine ⟨rfl, ?_, ?_, ?_, ?_, ?_, ?_, ?_⟩
  · simp only [List.length_take, hlen, split_index_eq]
    omega
  · simp only [List.length_drop, hlen, split_index_eq]
  · simp only [List.length_take, List.length_drop, hlen, split_index_eq]
    omega
  · have hnd2 := hnd
    rw [← List.take_append_drop (split_index n) shuffled_indices] at hnd2
    exact (List.disjoint_of_nodup_append hnd2).symm
  · intro k
    have hmem : k ∈ shuffled_indices ↔ k < n := by
      rw [hperm.mem_iff, List.mem_range]
    have h2 : k ∈ shuffled_indices ↔
        (k ∈ shuffled_indices.take (split_index n) ∨
          k ∈ shuffled_indices.drop (split_index n)) := by
      conv_lhs => rw [← List.take_append_drop (split_index n) shuffled_indices]
      exact List.mem_append
    rw [← hmem, h2]
    tauto
  · exact (List.drop_sublist _ _).nodup hnd
  · exact (List.take_sublist _ _).nodup hnd

/-- Witness for C2 on a concrete permutation of `range 10`: the test part
has `floor(0.2 * 10) = 2` entries, the train part the other 8. -/
theorem spec_C2_split_witness :
    ([2, 7, 1, 9, 0, 4, 3, 8, 6, 5] : List ℕ).Perm (List.range 10)
    ∧ (train_test_indices [2, 7, 1, 9, 0, 4, 3, 8, 6, 5] 10).2.length = 10 / 5
    ∧ (train_test_indices [2, 7, 1, 9, 0, 4, 3, 8, 6, 5] 10).1.length = 10 - 10 / 5 :=
  ⟨by decide, (spec_C2_split 10 _ (by decide)).2.1, (spec_C2_split 10 _ (by decide)).2.2.1⟩

/-- C4 counterexample: the flags are *not* mutually exclusive; the parser
accepts `--train --infer` (no "conflicting arguments" rejection), and the
`if`/`elif` chain then runs the training mode only. -/
theorem spec_C4_counterexample :
    parse_args ["--train", "--infer"] = Except.ok ⟨true, true, false⟩
    ∧ select_mode ⟨true, true, false⟩ = some Mode.train :=
  ⟨rfl, rfl⟩

/-- C4 (amended): the CLI offers the `store_true` flags `--train`,
`--infer` and `--curves`; every combination of them is accepted by the
parser, and the `if`/`elif`/`elif` dispatch runs at most one mode, with
`--train` taking precedence over `--infer` and `--infer` over
`--curves`; with none of the flags set, no mode runs. -/
theorem spec_C4_modes (a : Args) (m1 m2 : Mode) :
    parse_args (flags_of a) = Except.ok a
    ∧ (select_mode a = some m1 → select_mode a = some m2 → m1 = m2)
    ∧ (a.train = true → select_mode a = some Mode.train)
    ∧ (a.train = false → a.infer = true → select_mode a = some Mode.infer)
    ∧ (a.train = false → a.infer = false → a.curves = true →
        select_mode a = some Mode.curves)
    ∧ (a.train = false → a.infer = false → a.curves = false →
        select_mode a = none) := by
  obtain ⟨t, i, c⟩ := a
  refine ⟨?_, ?_, ?_, ?_, ?_, ?_⟩
  · cases t <;> cases i <;> cases c <;> rfl
  · intro h1 h2
    rw [h1] at h2
    exact Option.some.inj h2
  · cases t <;> cases i <;> cases c <;> decide
  · cases t <;> cases i <;> cases c <;> decide
  · cases t <;> cases i <;> cases c <;> decide
  · cases t <;> cases i <;> cases c <;> decide

/-- Witness for C4 (amended) at the concrete flag set `--train --infer`:
the parser accepts it and only the training mode runs. -/
theorem spec_C4_modes_witness :
    parse_args (flags_of ⟨true, true, false⟩) = Except.ok ⟨true, true, false⟩
    ∧ select_mode ⟨true, true, false⟩ = some Mode.train :=
  ⟨(spec_C4_modes ⟨true, true, false⟩ Mode.train Mode.train).1,
    (spec_C4_modes ⟨true, true, false⟩ Mode.train Mode.train).2.2.1 rfl⟩

/-- C5: `TGSDataset.__len__` is the length of the image-directory listing,
and for every valid index `__getitem__` (without transform) returns the
pair of the image and the mask with the *same* file name, the mask taken
from the mask directory, both converted to single-channel grayscale
(`"L"`) and resized to `128 × 128`; an invalid index raises. -/
theorem spec_C5_dataset (d : TGSDataset) (p m : String) (t : Option (Img → Img))
    (listdir : String → List String) (i : ℕ) (f : String) :
    (TGSDataset.init p m t listdir).all_images = listdir p
    ∧ TGSDataset.len (TGSDataset.init p m t listdir) = (listdir p).length
    ∧ (d.transform = none → d.all_images.get? i = some f →
        d.getitem i = some
          (Img.resize 128 128 (Img.convert ("L") (Img.open' d.img_path f)),
            Img.resize 128 128 (Img.convert ("L") (Img.open' d.mask_path f))))
    ∧ (d.all_images.get? i = none → d.getitem i = none) := by
  refine ⟨rfl, rfl, ?_, ?_⟩
  · intro ht hf
    rw [List.get?_eq_getElem?] at hf
    simp [TGSDataset.getitem, List.get?_eq_getElem?, hf, ht]
  · intro hf
    rw [List.get?_eq_getElem?] at hf
    simp [TGSDataset.getitem, List.get?_eq_getElem?, hf]

/-- Witness for C5 at a two-file dataset: index 0 yields the grayscale,
resized image/mask pair named `a.png` from the two directories. -/
theorem spec_C5_dataset_witness :
    wdataset.getitem 0 = some
      (Img.resize 128 128 (Img.convert ("L") (Img.open' ("./data/train/images/") ("a.png"))),
        Img.resize 128 128 (Img.convert ("L") (Img.open' ("./data/train/masks/") ("a.png")))) :=
  (spec_C5_dataset wdataset ("") ("") none (fun _ => []) 0 ("a.png")).2.2.1 rfl rfl

/-- C6: `Model.infer_data` binarizes each predicted pixel against a
threshold that defaults to `0.5` and is a parameter: a pixel of
`pred_bin` is set exactly when the predicted value strictly exceeds the
threshold. -/
theorem spec_C6_threshold (pred : List ℚ) (t : ℚ) (i : ℕ) (q : ℚ) :
    pred_binary pred = pred_binary pred 0.5
    ∧ (pred.get? i = some q →
        (pred_binary pred t).get? i = some (decide (q > t)))
    ∧ ((pred_binary pred t).get? i = some true ↔
        ∃ p, pred.get? i = some p ∧ p > t) := by
  refine ⟨rfl, ?_, ?_⟩
  · intro h
    rw [List.get?_eq_getElem?] at h
    simp [pred_binary, List.get?_eq_getElem?, List.getElem?_map, h]
  · simp [pred_binary, List.get?_eq_getElem?, List.getElem?_map]

/-- Witness for C6: on the prediction `[1/4, 3/4]` with the default
threshold, pixel 0 binarizes to `false` since `1/4` does not exceed
`1/2`. -/
theorem spec_C6_threshold_witness :
    (pred_binary [1/4, 3/4] (1/2)).get? 0 = some (decide ((1/4 : ℚ) > 1/2)) :=
  (spec_C6_threshold [1/4, 3/4] (1/2) 0 (1/4)).2.1 rfl

lemma test_batches_weights {W G B : Type} (p : TorchPrims W G B)
    (s : NetState W G) (bs : List B) :
    (test_batches p s bs).1.weights = s.weights := by
  induction bs generalizing s with
  | nil => rfl
  | cons b bs ih =>
      simp [test_batches, test_batch, ih]

/-- C8: the per-epoch test-loss evaluation runs under `no_grad` and never
calls `optimizer.step`, so it leaves the network parameters unchanged: in
particular the weights after an epoch's test loop equal the weights after
that epoch's last training step. -/
theorem spec_C8_no_grad {W G B : Type} (p : TorchPrims W G B) (s : NetState W G)
    (train_bs test_bs : List B) :
    (test_batches p s test_bs).1.weights = s.weights
    ∧ (test_batches p (train_batches p s train_bs).1 test_bs).1.weights =
        (train_batches p s train_bs).1.weights :=
  ⟨test_batches_weights p s test_bs, test_batches_weights p _ test_bs⟩

lemma plt_plot_ok_iff (x y : List ℚ) :
    Model.plt_plot x y = Except.ok () ↔ x.length = y.length := by
  unfold Model.plt_plot
  split_ifs with h <;> simp [h]

lemma plt_plot_error_of_ne (x y : List ℚ) (h : x.length ≠ y.length) :
    Model.plt_plot x y = Except.error ("x and y must have same first dimension") := by
  unfold Model.plt_plot
  rw [if_neg h]

lemma plot_curves_ok_iff (n : ℕ) (tr te : List ℚ) :
    Model.plot_curves n tr te = Except.ok () ↔ tr.length = n ∧ te.length = n := by
  have hx : (Model.epoch_axis n).length = n := by
    simp [Model.epoch_axis]
  unfold Model.plot_curves
  cases hcase : Model.plt_plot (Model.epoch_axis n) tr with
  | error e =>
      have hne : tr.length ≠ n := by
        intro h
        have hok := (plt_plot_ok_iff (Model.epoch_axis n) tr).mpr (by rw [hx, h])
        rw [hok] at hcase
        cases hcase
      constructor
      · intro h
        cases h
      · intro h
        exact absurd h.1 hne
  | ok u =>
      obtain ⟨⟩ := u
      have h1 : tr.length = n := by
        have := (plt_plot_ok_iff (Model.epoch_axis n) tr).mp hcase
        rw [hx] at this
        exact this.symm
      rw [plt_plot_ok_iff, hx]
      constructor
      · intro h
        exact ⟨h1, h.symm⟩
      · intro h
        exact h.2.symm

lemma plot_curves_error_of_short (n : ℕ) (tr te : List ℚ) (h : tr.length ≠ n) :
    Model.plot_curves n tr te =
      Except.error ("x and y must have same first dimension") := by
  have hx : (Model.epoch_axis n).length = n := by
    simp [Model.epoch_axis]
  unfold Model.plot_curves
  rw [plt_plot_error_of_ne _ _ (by rw [hx]; exact fun he => h he.symm)]

/-- C9: `Model.plot_curves` plots the stored lists against the fixed
x-axis `range(1, num_epochs + 1)`, so it succeeds exactly when
`train_loss` and `test_loss` both have length `num_epochs`; for every run
that early stopping halted before `num_epochs` epochs, the stored lists
are shorter and the plotting call fails on mismatched lengths. -/
theorem spec_C9_plot_length {W : Type} (cfg : Model.Config W) (w0 : W)
    (n : ℕ) (tr te : List ℚ) (i : ℕ) :
    (Model.plot_curves n tr te = Except.ok () ↔ tr.length = n ∧ te.length = n)
    ∧ (i < cfg.num_epochs →
        (Model.stateAfter cfg w0 i).early_stopping_counter = cfg.early_stopping_epochs →
        Model.plot_curves cfg.num_epochs (Model.train cfg w0).train_loss
          (Model.train cfg w0).test_loss =
          Except.error ("x and y must have same first dimension")) := by
  refine ⟨plot_curves_ok_iff n tr te, ?_⟩
  intro hi hc
  have hfreeze :=
    Model.stateAfter_frozen cfg w0 i hc cfg.num_epochs (le_of_lt hi)
  have hlen : (Model.train cfg w0).train_loss.length < cfg.num_epochs := by
    have h1 : Model.train cfg w0 = Model.stateAfter cfg w0 i := hfreeze
    rw [h1, Model.loss_lists_length_eq]
    exact lt_of_le_of_lt (Model.test_loss_length_le cfg w0 i) hi
  exact plot_curves_error_of_short _ _ _ (Nat.ne_of_lt hlen)

/-- Witness for C9 at the concrete run `wcfg`: early stopping halts the
run after 3 of 6 epochs, so plotting the learning curves fails. -/
theorem spec_C9_plot_length_witness :
    Model.plot_curves wcfg.num_epochs (Model.train wcfg ()).train_loss
      (Model.train wcfg ()).test_loss =
      Except.error ("x and y must have same first dimension") :=
  (spec_C9_plot_length wcfg () 0 [] [] 3).2 (by decide) (by decide)

/-- C10: persisting and reloading the loss history round-trips: for every
pair of lists, `load_loss_pkl` after `save_loss_pkl` restores both lists
exactly, whatever was on disk before. -/
theorem spec_C10_pkl_roundtrip (a b : List ℚ) (fs : Model.FS) :
    Model.load_loss_pkl (Model.save_loss_pkl a b fs) = some (a, b) := rfl
